import Mathlib

/-!
Verification of the ceresmeta cluster-metadata coordinator.

Shallow embedding of the Go sources:
* `server/lock` (`EntryLock.TryLock` / `EntryLock.UnLock`),
* `server/cluster` (`Cluster.CreateSchema`, `Cluster.CreateTable`,
  `Cluster.DropTable`, `Cluster.GetTable`, `Cluster.RegisterNode`),
* `server/service/eventdispatch` (`DispatchImpl` RPC fan-out and its
  connection cache),
* the shard-scatter bootstrap (`allocNodeShards`), modelled from the spec
  since its implementation is only pinned here by its tests.

Go maps are embedded as association lists with a first-match lookup and an
in-place `upsert` (Go map assignment overwrites an existing key).  Machine
integers (`uint32`/`uint64`) are embedded as `Nat`: none of the verified
operations can overflow, since they only copy ids or increment an allocator.
Fallible Go functions return a sum type; a Go `panic` is an explicit
constructor of the result type.
-/

set_option autoImplicit false

/-! ## Association-list helpers (embedding of Go maps) -/

def lookupA {α β : Type} [DecidableEq α] : List (α × β) → α → Option β
  | [], _ => none
  | (k, v) :: rest, key => if key = k then some v else lookupA rest key

def upsertA {α β : Type} [DecidableEq α] : List (α × β) → α → β → List (α × β)
  | [], key, val => [(key, val)]
  | (k, v) :: rest, key, val =>
      if key = k then (key, val) :: rest else (k, v) :: upsertA rest key val

def keysA {α β : Type} (l : List (α × β)) : List α := l.map Prod.fst

theorem lookupA_upsertA_self {α β : Type} [DecidableEq α]
    (l : List (α × β)) (k : α) (v : β) : lookupA (upsertA l k v) k = some v := by
  induction l with
  | nil => simp [upsertA, lookupA]
  | cons hd tl ih =>
    obtain ⟨k', v'⟩ := hd
    by_cases h : k = k'
    · simp [upsertA, lookupA, h]
    · simp [upsertA, lookupA, h, ih]

theorem lookupA_upsertA_ne {α β : Type} [DecidableEq α]
    (l : List (α × β)) (k k' : α) (v : β) (h : k' ≠ k) :
    lookupA (upsertA l k v) k' = lookupA l k' := by
  induction l with
  | nil => simp [upsertA, lookupA, h]
  | cons hd tl ih =>
    obtain ⟨k0, v0⟩ := hd
    by_cases hk : k = k0
    · subst hk
      simp [upsertA, lookupA, h]
    · by_cases hk' : k' = k0
      · simp [upsertA, lookupA, hk, hk']
      · simp [upsertA, lookupA, hk, hk', ih]

theorem keysA_upsertA {α β : Type} [DecidableEq α]
    (l : List (α × β)) (k : α) (v : β) :
    keysA (upsertA l k v) = if k ∈ keysA l then keysA l else keysA l ++ [k] := by
  induction l with
  | nil => simp [upsertA, keysA]
  | cons hd tl ih =>
    obtain ⟨k0, v0⟩ := hd
    by_cases hk : k = k0
    · subst hk
      simp [upsertA, keysA]
    · simp only [upsertA, if_neg hk, keysA, List.map_cons] at ih ⊢
      rw [ih]
      by_cases hmem : k ∈ List.map Prod.fst tl
      · simp [List.mem_cons, hk, hmem]
      · simp [List.mem_cons, hk, hmem]

theorem keysA_upsertA_nodup {α β : Type} [DecidableEq α]
    (l : List (α × β)) (k : α) (v : β) (h : (keysA l).Nodup) :
    (keysA (upsertA l k v)).Nodup := by
  rw [keysA_upsertA]
  by_cases hmem : k ∈ keysA l
  · simpa [hmem] using h
  · simp only [hmem, if_false]
    rw [List.nodup_append]
    refine ⟨h, List.nodup_singleton k, ?_⟩
    intro a ha hb
    rw [List.mem_singleton] at hb
    exact hmem (hb ▸ ha)

/-! ## EntryLock (`server/lock/lock.go`)

The held-entry set `entryLocks : map[uint64]struct{}` is embedded as a
`Finset ℕ`.  `TryLock` first scans all requested entries for a conflict and
only then inserts them, so the embedding checks first and inserts after, just
like the source.  `UnLock` first checks that every requested entry is held
(panicking otherwise, before any deletion) and only then deletes; the
embedding returns a `panicked` flag paired with the held set at that moment.
-/

def tryLockCheck (held : Finset ℕ) : List ℕ → Bool
  | [] => true
  | l :: ls => if l ∈ held then false else tryLockCheck held ls

def insertAll (held : Finset ℕ) : List ℕ → Finset ℕ
  | [] => held
  | l :: ls => insertAll (insert l held) ls

def TryLock (held : Finset ℕ) (locks : List ℕ) : Bool × Finset ℕ :=
  if tryLockCheck held locks then (true, insertAll held locks) else (false, held)

def unLockCheck (held : Finset ℕ) : List ℕ → Bool
  | [] => true
  | l :: ls => if l ∈ held then unLockCheck held ls else false

def eraseAll (held : Finset ℕ) : List ℕ → Finset ℕ
  | [] => held
  | l :: ls => eraseAll (held.erase l) ls

def UnLock (held : Finset ℕ) (locks : List ℕ) : Bool × Finset ℕ :=
  if unLockCheck held locks then (false, eraseAll held locks) else (true, held)

theorem tryLockCheck_eq_true_iff (held : Finset ℕ) (locks : List ℕ) :
    tryLockCheck held locks = true ↔ ∀ l ∈ locks, l ∉ held := by
  induction locks with
  | nil => simp [tryLockCheck]
  | cons hd tl ih =>
    by_cases h : hd ∈ held
    · simp [tryLockCheck, h]
    · simp [tryLockCheck, h, ih]

theorem insertAll_eq (locks : List ℕ) : ∀ held : Finset ℕ,
    insertAll held locks = held ∪ locks.toFinset := by
  induction locks with
  | nil => intro held; simp [insertAll]
  | cons hd tl ih =>
    intro held
    rw [insertAll, ih, List.toFinset_cons, Finset.insert_union, Finset.union_insert]

theorem unLockCheck_eq_true_iff (held : Finset ℕ) (locks : List ℕ) :
    unLockCheck held locks = true ↔ ∀ l ∈ locks, l ∈ held := by
  induction locks with
  | nil => simp [unLockCheck]
  | cons hd tl ih =>
    by_cases h : hd ∈ held
    · simp [unLockCheck, h, ih]
    · simp [unLockCheck, h]

theorem eraseAll_eq (locks : List ℕ) : ∀ held : Finset ℕ,
    eraseAll held locks = held \ locks.toFinset := by
  induction locks with
  | nil => intro held; simp [eraseAll]
  | cons hd tl ih =>
    intro held
    rw [eraseAll, ih, List.toFinset_cons, Finset.sdiff_insert, Finset.erase_sdiff_comm]

/-- C1: For every list of 64-bit entries S and every state of an EntryLock,
`TryLock(S)` returns true iff no entry of S is currently held; when it returns
true exactly the entries of S are added to the held set, and when it returns
false the held set is unchanged, so a partial acquisition is never visible. -/
theorem tryLock_all_or_nothing (held : Finset ℕ) (locks : List ℕ) :
    ((TryLock held locks).1 = true ↔ ∀ l ∈ locks, l ∉ held) ∧
    ((TryLock held locks).1 = true →
      (TryLock held locks).2 = held ∪ locks.toFinset) ∧
    ((TryLock held locks).1 = false → (TryLock held locks).2 = held) := by
  unfold TryLock
  by_cases h : tryLockCheck held locks = true
  · rw [if_pos h]
    exact ⟨by simpa using (tryLockCheck_eq_true_iff held locks).mp h,
      fun _ => insertAll_eq locks held, by simp⟩
  · rw [if_neg h]
    refine ⟨?_, by simp, fun _ => rfl⟩
    exact iff_of_false (by simp)
      (fun hall => h ((tryLockCheck_eq_true_iff held locks).mpr hall))

/-- Witness for C1 at a concrete input: held = {1}, S = [2, 3]. -/
theorem tryLock_all_or_nothing_witness :
    (TryLock {1} [2, 3]).2 = ({1} : Finset ℕ) ∪ [2, 3].toFinset :=
  (tryLock_all_or_nothing {1} [2, 3]).2.1
    ((tryLock_all_or_nothing {1} [2, 3]).1.mpr (by decide))

/-- C5: `EntryLock.UnLock(S)` panics iff some entry of S is not currently
held; when all entries of S are held it removes exactly the entries of S and
does not panic; the panic happens in the check loop before any deletion, so
on panic the held set is unchanged. -/
theorem unLock_integrity (held : Finset ℕ) (locks : List ℕ) :
    ((UnLock held locks).1 = true ↔ ∃ l ∈ locks, l ∉ held) ∧
    ((∀ l ∈ locks, l ∈ held) →
      UnLock held locks = (false, held \ locks.toFinset)) ∧
    ((UnLock held locks).1 = true → (UnLock held locks).2 = held) := by
  unfold UnLock
  by_cases h : unLockCheck held locks = true
  · rw [if_pos h]
    have hall := (unLockCheck_eq_true_iff held locks).mp h
    refine ⟨by simpa using fun l hl => hall l hl, fun _ => ?_, by simp⟩
    rw [eraseAll_eq]
  · rw [if_neg h]
    refine ⟨?_, fun hall => absurd ((unLockCheck_eq_true_iff held locks).mpr hall) h, fun _ => rfl⟩
    refine iff_of_true rfl ?_
    by_contra hnone
    push_neg at hnone
    exact h ((unLockCheck_eq_true_iff held locks).mpr hnone)

/-- Witness for C5 at a concrete input: held = {2, 3}, S = [2, 3]. -/
theorem unLock_integrity_witness :
    UnLock {2, 3} [2, 3] = (false, ({2, 3} : Finset ℕ) \ [2, 3].toFinset) :=
  (unLock_integrity {2, 3} [2, 3]).2.1 (by decide)

/-- C10: `TryLock` on the empty entry list returns true and leaves the held
set unchanged, and `UnLock` on the empty entry list does not panic and leaves
the held set unchanged. -/
theorem emptyList_lock_noop (held : Finset ℕ) :
    TryLock held [] = (true, held) ∧ UnLock held [] = (false, held) := by
  constructor
  · simp [TryLock, tryLockCheck, insertAll]
  · simp [UnLock, unLockCheck, eraseAll]

/-! ## Cluster metadata (`server/cluster/cluster.go`)

The `Cluster` struct's caches (`schemasCache`, `shardsCache`, `nodesCache`)
and the backing etcd storage rows are embedded as association lists keyed the
way the Go maps and etcd keys are keyed (schemas by name, shards by id,
tables in storage by `(schemaID, tableName)`, nodes by name).  The single
`clusterID` is a field; the monotonic ID allocator is embedded by its next
free id (`allocNext`), per spec section 4.2 the allocator hands out dense
monotonically increasing ids.  Storage writes (`storage.CreateSchema`,
`storage.CreateTable`, `storage.CreateOrUpdateNode`), whose etcd
implementation is not part of the sources here, are modelled from the spec as
plain keyed puts that echo back the stored record.  The cluster topology
(`metaData.clusterTopology`, the ClusterView placement) is carried as an
opaque list of shard-to-node assignments; none of the verified operations
touch it.
-/

structure SchemaPb where
  id : ℕ
  name : String
  clusterId : ℕ
deriving DecidableEq, Repr

structure TablePb where
  id : ℕ
  name : String
  schemaId : ℕ
  shardId : ℕ
deriving DecidableEq, Repr

structure NodePb where
  name : String
  lease : ℕ
deriving DecidableEq, Repr

/-- `cluster.Table`: cached table entry, carrying the parent schema meta. -/
structure TableEntry where
  schema : SchemaPb
  meta : TablePb
deriving DecidableEq, Repr

/-- `cluster.Schema`: cached schema, `tableMap` is `map[string]*Table`. -/
structure SchemaEntry where
  meta : SchemaPb
  tableMap : List (String × TableEntry)
deriving DecidableEq, Repr

/-- `cluster.Shard`: only the fields the verified operations read or write
(`tables : map[uint64]*Table` and `version`) are carried. -/
structure ShardEntry where
  tables : List (ℕ × TableEntry)
  version : ℕ
deriving DecidableEq, Repr

/-- `cluster.Node`: cached node entry. -/
structure NodeEntry where
  meta : NodePb
  shardIDs : List ℕ
deriving DecidableEq, Repr

structure Cluster where
  clusterID : ℕ
  schemasCache : List (String × SchemaEntry)
  shardsCache : List (ℕ × ShardEntry)
  nodesCache : List (String × NodeEntry)
  clusterTopology : List (ℕ × String)
  storageSchemas : List (String × SchemaPb)
  storageTables : List ((ℕ × String) × TablePb)
  storageNodes : List (String × NodePb)
  allocNext : ℕ
deriving DecidableEq, Repr

inductive CErr where
  | schemaNotFound
  | shardNotFound
  | nodeNotFound
  /-- Go nil-pointer dereference panic (e.g. indexing `shardsCache` at a
  missing shard id and writing through the nil `*Shard`). -/
  | nilPanic
deriving DecidableEq, Repr

inductive CResult (α : Type) where
  | err (e : CErr)
  | ok (v : α)
deriving DecidableEq, Repr

/-- `Cluster.getSchemaLocked`. -/
def getSchemaLocked (c : Cluster) (schemaName : String) : Option SchemaEntry :=
  lookupA c.schemasCache schemaName

/-- `Cluster.updateSchemaCacheLocked`: install a fresh schema with an empty
table map into `schemasCache`. -/
def updateSchemaCacheLocked (c : Cluster) (schemaPb : SchemaPb) : Cluster :=
  { c with schemasCache := upsertA c.schemasCache schemaPb.name { meta := schemaPb, tableMap := [] } }

/-- `Cluster.CreateSchema`: return the cached schema's id when the name is
already present; otherwise allocate a fresh id, persist the schema row and
cache it. -/
def CreateSchema (c : Cluster) (schemaName : String) : ℕ × Cluster :=
  match getSchemaLocked c schemaName with
  | some schema => (schema.meta.id, c)
  | none =>
    let schemaID := c.allocNext
    let schemaPb : SchemaPb := { id := schemaID, name := schemaName, clusterId := c.clusterID }
    let c' := { c with
      allocNext := schemaID + 1,
      storageSchemas := upsertA c.storageSchemas schemaName schemaPb }
    (schemaID, updateSchemaCacheLocked c' schemaPb)

/-- `Cluster.updateTableCacheLocked`: write the table into the schema's
`tableMap` and into the owning shard's `tables` map.  In Go the cached
`*Schema` is mutated in place, so the write is visible under the cache key
the schema was found under; the embedding passes that key (`schemaName`)
explicitly.  The Go code indexes `c.shardsCache[tablePb.GetShardId()]`
without an existence check; on a missing shard the write through the nil
`*Shard` panics, embedded as `CResult.err .nilPanic`. -/
def updateTableCacheLocked (c : Cluster) (schemaName : String) (schema : SchemaEntry)
    (tablePb : TablePb) : CResult (TableEntry × Cluster) :=
  let table : TableEntry := { schema := schema.meta, meta := tablePb }
  match lookupA c.shardsCache tablePb.shardId with
  | none => .err .nilPanic
  | some shard =>
    .ok (table, { c with
      schemasCache := upsertA c.schemasCache schemaName
        { schema with tableMap := upsertA schema.tableMap tablePb.name table },
      shardsCache := upsertA c.shardsCache tablePb.shardId
        { shard with tables := upsertA shard.tables tablePb.id table } })

/-- `Cluster.CreateTable`: check the schema exists, allocate a table id,
persist the table row, update the caches.  There is no check whether a table
of that name already exists. -/
def CreateTable (c : Cluster) (schemaName : String) (shardID : ℕ) (tableName : String) :
    CResult (ℕ × Cluster) :=
  match getSchemaLocked c schemaName with
  | none => .err .schemaNotFound
  | some schema =>
    let tableID := c.allocNext
    let tablePb : TablePb :=
      { id := tableID, name := tableName, schemaId := schema.meta.id, shardId := shardID }
    let c' := { c with
      allocNext := tableID + 1,
      storageTables := upsertA c.storageTables (schema.meta.id, tableName) tablePb }
    match updateTableCacheLocked c' schemaName schema tablePb with
    | .err e => .err e
    | .ok (_, c'') => .ok (tableID, c'')

/-- `Cluster.DropTable`, translated as written: the result of
`getSchemaLocked` is tested with the polarity in the source
(`if exists { return ErrSchemaNotFound }`), so an existing schema is
rejected, and a missing schema leaves `schema` nil and the subsequent
`schema.GetID()` dereferences the nil pointer.  The storage delete and the
cache eviction below the guard are unreachable. -/
def DropTable (c : Cluster) (schemaName tableName : String) (tableID : ℕ) :
    CResult Cluster :=
  match getSchemaLocked c schemaName with
  | some _ => .err .schemaNotFound
  | none => .err .nilPanic

/-- `Cluster.GetTable`: resolve the schema, then the table from the schema's
cached `tableMap`; on a cache miss fall back to the storage row and install
it via `updateTableCacheLocked`. -/
def GetTable (c : Cluster) (schemaName tableName : String) :
    CResult (Option TableEntry × Cluster) :=
  match lookupA c.schemasCache schemaName with
  | none => .err .schemaNotFound
  | some schema =>
    match lookupA schema.tableMap tableName with
    | some table => .ok (some table, c)
    | none =>
      match lookupA c.storageTables (schema.meta.id, tableName) with
      | none => .ok (none, c)
      | some tablePb =>
        match updateTableCacheLocked c schemaName schema tablePb with
        | .err e => .err e
        | .ok (table, c') => .ok (some table, c')

/-- `Cluster.RegisterNode`: `storage.CreateOrUpdateNode` upserts the node row
(modelled from the spec as a keyed put of the node record carrying the fresh
lease), then the node cache entry is created, or has only its `meta`
refreshed when present (keeping `shardIDs`). -/
def RegisterNode (c : Cluster) (nodeName : String) (lease : ℕ) : Cluster :=
  let nodePb : NodePb := { name := nodeName, lease := lease }
  let cacheEntry :=
    match lookupA c.nodesCache nodeName with
    | some node => { node with meta := nodePb }
    | none => { meta := nodePb, shardIDs := [] }
  { c with
    storageNodes := upsertA c.storageNodes nodeName nodePb,
    nodesCache := upsertA c.nodesCache nodeName cacheEntry }

/-- The cluster state produced by a successful `Cluster.CreateTable` call
that found `schema` under `schemaName` and `shard` under `shardID`. -/
def createTablePost (c : Cluster) (schemaName tableName : String) (shardID : ℕ)
    (schema : SchemaEntry) (shard : ShardEntry) : Cluster :=
  let tablePb : TablePb := ⟨c.allocNext, tableName, schema.meta.id, shardID⟩
  let table : TableEntry := ⟨schema.meta, tablePb⟩
  { c with
    allocNext := c.allocNext + 1,
    storageTables := upsertA c.storageTables (schema.meta.id, tableName) tablePb,
    schemasCache := upsertA c.schemasCache schemaName
      { schema with tableMap := upsertA schema.tableMap tableName table },
    shardsCache := upsertA c.shardsCache shardID
      { shard with tables := upsertA shard.tables c.allocNext table } }

theorem createTable_eq (c : Cluster) (schemaName tableName : String) (shardID : ℕ)
    (schema : SchemaEntry) (shard : ShardEntry)
    (hschema : getSchemaLocked c schemaName = some schema)
    (hshard : lookupA c.shardsCache shardID = some shard) :
    CreateTable c schemaName shardID tableName =
      .ok (c.allocNext, createTablePost c schemaName tableName shardID schema shard) := by
  simp [CreateTable, updateTableCacheLocked, createTablePost, hschema, hshard]

/-- C4: `Cluster.CreateSchema` is idempotent by name.  When the schema name
is cached it returns the existing id and the state — allocator and storage
included — is untouched; when it is absent it allocates the next id, persists
the schema row, caches it and returns that id; and a repeated call returns
the same id without further change. -/
theorem createSchema_idempotent (c : Cluster) (schemaName : String) :
    (∀ s, getSchemaLocked c schemaName = some s →
      CreateSchema c schemaName = (s.meta.id, c)) ∧
    (getSchemaLocked c schemaName = none →
      CreateSchema c schemaName = (c.allocNext,
        { c with
          allocNext := c.allocNext + 1,
          storageSchemas := upsertA c.storageSchemas schemaName
            ⟨c.allocNext, schemaName, c.clusterID⟩,
          schemasCache := upsertA c.schemasCache schemaName
            ⟨⟨c.allocNext, schemaName, c.clusterID⟩, []⟩ })) ∧
    CreateSchema (CreateSchema c schemaName).2 schemaName =
      ((CreateSchema c schemaName).1, (CreateSchema c schemaName).2) := by
  refine ⟨?_, ?_, ?_⟩
  · intro s hs
    simp [CreateSchema, hs]
  · intro hnone
    simp [CreateSchema, hnone, updateSchemaCacheLocked]
  · cases h : getSchemaLocked c schemaName with
    | some s =>
      simp [CreateSchema, h]
    | none =>
      have h1 : CreateSchema c schemaName = (c.allocNext,
          { c with
            allocNext := c.allocNext + 1,
            storageSchemas := upsertA c.storageSchemas schemaName
              ⟨c.allocNext, schemaName, c.clusterID⟩,
            schemasCache := upsertA c.schemasCache schemaName
              ⟨⟨c.allocNext, schemaName, c.clusterID⟩, []⟩ }) := by
        simp [CreateSchema, h, updateSchemaCacheLocked]
      rw [h1]
      have h2 : getSchemaLocked
          ({ c with
            allocNext := c.allocNext + 1,
            storageSchemas := upsertA c.storageSchemas schemaName
              ⟨c.allocNext, schemaName, c.clusterID⟩,
            schemasCache := upsertA c.schemasCache schemaName
              ⟨⟨c.allocNext, schemaName, c.clusterID⟩, []⟩ } : Cluster) schemaName =
          some ⟨⟨c.allocNext, schemaName, c.clusterID⟩, []⟩ :=
        lookupA_upsertA_self c.schemasCache schemaName _
      simp [CreateSchema, h2]

/-- Witness for C4 at a concrete input: a cluster whose cache already holds
schema "s" with id 7; `CreateSchema` returns 7 and changes nothing. -/
theorem createSchema_idempotent_witness :
    CreateSchema ⟨0, [("s", ⟨⟨7, "s", 0⟩, []⟩)], [], [], [], [("s", ⟨7, "s", 0⟩)], [], [], 8⟩ "s"
      = (7, ⟨0, [("s", ⟨⟨7, "s", 0⟩, []⟩)], [], [], [], [("s", ⟨7, "s", 0⟩)], [], [], 8⟩) :=
  (createSchema_idempotent
      ⟨0, [("s", ⟨⟨7, "s", 0⟩, []⟩)], [], [], [], [("s", ⟨7, "s", 0⟩)], [], [], 8⟩ "s").1
    ⟨⟨7, "s", 0⟩, []⟩ (by decide)

/-- A concrete cluster for exercising `CreateTable`: schema "s" (id 0, no
tables) and shard 0 (no tables) exist; the allocator's next free id is 1. -/
def c2SampleCluster : Cluster :=
  { clusterID := 0
    schemasCache := [("s", ⟨⟨0, "s", 0⟩, []⟩)]
    shardsCache := [(0, ⟨[], 0⟩)]
    nodesCache := []
    clusterTopology := []
    storageSchemas := [("s", ⟨0, "s", 0⟩)]
    storageTables := []
    storageNodes := []
    allocNext := 1 }

def cResultId (r : CResult (ℕ × Cluster)) : Option ℕ :=
  match r with
  | .err _ => none
  | .ok (i, _) => some i

def c2FirstCall : CResult (ℕ × Cluster) := CreateTable c2SampleCluster "s" 0 "t"

def c2SecondCall : CResult (ℕ × Cluster) :=
  match c2FirstCall with
  | .err e => .err e
  | .ok (_, c1) => CreateTable c1 "s" 0 "t"

/-- C2 counterexample: repeating `Cluster.CreateTable` with identical
arguments does not return the first call's TableID — the second call
allocates a fresh id (here 2, while the first call returned 1). -/
theorem createTable_second_call_new_id :
    cResultId c2FirstCall = some 1 ∧ cResultId c2SecondCall = some 2 ∧
    cResultId c2FirstCall ≠ cResultId c2SecondCall := by decide

/-- C2 (amended): `Cluster.CreateTable` is not idempotent.  A second call
with the same schema name, shard id and table name allocates and returns a
fresh TableID, overwrites the schema's name→table mapping with the new id,
and adds a second entry to the shard's table set, so each call touches the
ShardView once (twice in total). -/
theorem createTable_allocates_fresh_id (c : Cluster) (schemaName tableName : String)
    (shardID : ℕ) (schema : SchemaEntry) (shard : ShardEntry)
    (hschema : getSchemaLocked c schemaName = some schema)
    (hshard : lookupA c.shardsCache shardID = some shard) :
    ∃ c1 c2,
      CreateTable c schemaName shardID tableName = .ok (c.allocNext, c1) ∧
      CreateTable c1 schemaName shardID tableName = .ok (c.allocNext + 1, c2) ∧
      c.allocNext + 1 ≠ c.allocNext ∧
      (∃ schema2, lookupA c2.schemasCache schemaName = some schema2 ∧
        lookupA schema2.tableMap tableName =
          some ⟨schema.meta, ⟨c.allocNext + 1, tableName, schema.meta.id, shardID⟩⟩) ∧
      (∃ shard2, lookupA c2.shardsCache shardID = some shard2 ∧
        shard2.tables =
          upsertA
            (upsertA shard.tables c.allocNext
              ⟨schema.meta, ⟨c.allocNext, tableName, schema.meta.id, shardID⟩⟩)
            (c.allocNext + 1)
            ⟨schema.meta, ⟨c.allocNext + 1, tableName, schema.meta.id, shardID⟩⟩) := by
  have h1 := createTable_eq c schemaName tableName shardID schema shard hschema hshard
  have hschema1 : getSchemaLocked (createTablePost c schemaName tableName shardID schema shard)
      schemaName = some
        { schema with tableMap := (upsertA schema.tableMap tableName
            ⟨schema.meta, ⟨c.allocNext, tableName, schema.meta.id, shardID⟩⟩) } :=
    lookupA_upsertA_self c.schemasCache schemaName _
  have hshard1 : lookupA (createTablePost c schemaName tableName shardID schema shard).shardsCache
      shardID = some
        { shard with tables := (upsertA shard.tables c.allocNext
            ⟨schema.meta, ⟨c.allocNext, tableName, schema.meta.id, shardID⟩⟩) } :=
    lookupA_upsertA_self c.shardsCache shardID _
  have h2 := createTable_eq (createTablePost c schemaName tableName shardID schema shard)
    schemaName tableName shardID _ _ hschema1 hshard1
  refine ⟨_, _, h1, h2, by omega, ⟨_, lookupA_upsertA_self _ _ _, ?_⟩,
    ⟨_, lookupA_upsertA_self _ _ _, ?_⟩⟩
  · exact lookupA_upsertA_self _ _ _
  · rfl

/-- Witness for C2's amended theorem at the concrete sample cluster: the two
calls return TableIDs 1 and 2. -/
theorem createTable_allocates_fresh_id_witness :
    ∃ c1 c2,
      CreateTable c2SampleCluster "s" 0 "t" = .ok (1, c1) ∧
      CreateTable c1 "s" 0 "t" = .ok (2, c2) := by
  obtain ⟨c1, c2, h1, h2, -, -, -⟩ :=
    createTable_allocates_fresh_id c2SampleCluster "s" "t" 0 ⟨⟨0, "s", 0⟩, []⟩ ⟨[], 0⟩
      (by decide) (by decide)
  exact ⟨c1, c2, h1, h2⟩

/-- A concrete cluster for exercising `DropTable`: schema "s" (id 0) exists
and holds table "t" with TableID 1 placed on shard 0. -/
def c3SampleCluster : Cluster :=
  { clusterID := 0
    schemasCache := [("s", ⟨⟨0, "s", 0⟩, [("t", ⟨⟨0, "s", 0⟩, ⟨1, "t", 0, 0⟩⟩)]⟩)]
    shardsCache := [(0, ⟨[(1, ⟨⟨0, "s", 0⟩, ⟨1, "t", 0, 0⟩⟩)], 0⟩)]
    nodesCache := []
    clusterTopology := []
    storageSchemas := [("s", ⟨0, "s", 0⟩)]
    storageTables := [((0, "t"), ⟨1, "t", 0, 0⟩)]
    storageNodes := []
    allocNext := 2 }

/-- C3: the `Cluster.DropTable` existence check is inverted
(`if exists { return ErrSchemaNotFound }`), so for a schema that exists and
contains the table, `DropTable` returns `ErrSchemaNotFound` instead of Ok —
while `GetTable` resolves the very table `DropTable` refused to drop — and
for a missing schema it dereferences the nil `*Schema`. -/
theorem dropTable_rejects_existing_schema :
    DropTable c3SampleCluster "s" "t" 1 = .err .schemaNotFound ∧
    GetTable c3SampleCluster "s" "t" =
      .ok (some ⟨⟨0, "s", 0⟩, ⟨1, "t", 0, 0⟩⟩, c3SampleCluster) ∧
    DropTable { c3SampleCluster with schemasCache := [] } "s" "t" 1 = .err .nilPanic := by
  decide

/-- C9: `Cluster.RegisterNode` creates or refreshes only the node row named
`nodeName` in storage and in the node cache (keeping a cached node's
`shardIDs`); the cluster topology, all shards, all schemas and tables, and
the id allocator are untouched, and other nodes' entries are unchanged. -/
theorem registerNode_frame (c : Cluster) (nodeName : String) (lease : ℕ) :
    (RegisterNode c nodeName lease).clusterID = c.clusterID ∧
    (RegisterNode c nodeName lease).schemasCache = c.schemasCache ∧
    (RegisterNode c nodeName lease).shardsCache = c.shardsCache ∧
    (RegisterNode c nodeName lease).clusterTopology = c.clusterTopology ∧
    (RegisterNode c nodeName lease).storageSchemas = c.storageSchemas ∧
    (RegisterNode c nodeName lease).storageTables = c.storageTables ∧
    (RegisterNode c nodeName lease).allocNext = c.allocNext ∧
    (∀ n, n ≠ nodeName →
      lookupA (RegisterNode c nodeName lease).nodesCache n = lookupA c.nodesCache n ∧
      lookupA (RegisterNode c nodeName lease).storageNodes n = lookupA c.storageNodes n) ∧
    lookupA (RegisterNode c nodeName lease).storageNodes nodeName = some ⟨nodeName, lease⟩ ∧
    Option.map (fun nd => nd.meta)
      (lookupA (RegisterNode c nodeName lease).nodesCache nodeName) = some ⟨nodeName, lease⟩ ∧
    Option.map (fun nd => nd.shardIDs)
      (lookupA (RegisterNode c nodeName lease).nodesCache nodeName) =
      some (match lookupA c.nodesCache nodeName with
            | some node => node.shardIDs
            | none => []) := by
  refine ⟨rfl, rfl, rfl, rfl, rfl, rfl, rfl, ?_, ?_, ?_, ?_⟩
  · intro n hn
    constructor
    · exact lookupA_upsertA_ne c.nodesCache nodeName n _ hn
    · exact lookupA_upsertA_ne c.storageNodes nodeName n _ hn
  · exact lookupA_upsertA_self c.storageNodes nodeName _
  · cases h : lookupA c.nodesCache nodeName with
    | some node => simp [RegisterNode, h, lookupA_upsertA_self]
    | none => simp [RegisterNode, h, lookupA_upsertA_self]
  · cases h : lookupA c.nodesCache nodeName with
    | some node => simp [RegisterNode, h, lookupA_upsertA_self]
    | none => simp [RegisterNode, h, lookupA_upsertA_self]

/-- Witness for C9 at a concrete input: registering "node0" into a cluster
that caches "node1" leaves the "node1" cache entry untouched. -/
theorem registerNode_frame_witness :
    lookupA (RegisterNode ⟨0, [], [], [("node1", ⟨⟨"node1", 3⟩, [0]⟩)], [], [], [], [],
        0⟩ "node0" 10).nodesCache "node1" =
      lookupA (⟨0, [], [], [("node1", ⟨⟨"node1", 3⟩, [0]⟩)], [], [], [], [],
        0⟩ : Cluster).nodesCache "node1" :=
  ((registerNode_frame ⟨0, [], [], [("node1", ⟨⟨"node1", 3⟩, [0]⟩)], [], [], [], [], 0⟩
      "node0" 10).2.2.2.2.2.2.2.1 "node1" (by decide)).1

/-! ## Event dispatch (`server/service/eventdispatch/dispatch_impl.go`)

Each `DispatchImpl` method obtains a meta-event client for the target
address and issues one RPC.  The embedding passes the two external outcomes
in explicitly: `client` is the result of `getMetaEventClient` (a dial can
fail) and `rpc` the result of the wire call (a transport error or a
response).  Responses carry the header `{Code, Error}`;
`CreateTableOnShard` and `DropTableOnShard` responses also carry
`LatestShardVersion`.  A non-zero header code becomes the typed
`ErrDispatch` error carrying the remote message.
-/

structure ResponseHeader where
  code : ℕ
  errMsg : String
deriving DecidableEq, Repr

/-- Response of `CreateTableOnShard` / `DropTableOnShard`. -/
structure ShardVersionResponse where
  header : ResponseHeader
  latestShardVersion : ℕ
deriving DecidableEq, Repr

/-- Response of the four calls that return only a header. -/
structure SimpleResponse where
  header : ResponseHeader
deriving DecidableEq, Repr

/-- Outcome of obtaining the grpc client for the address. -/
inductive ConnAttempt where
  | failed (msg : String)
  | connected
deriving DecidableEq, Repr

/-- Outcome of the wire call itself. -/
inductive RpcOutcome (ρ : Type) where
  | transportErr (msg : String)
  | reply (resp : ρ)
deriving DecidableEq, Repr

inductive DispatchError where
  /-- `getMetaEventClient` failed (dial error, wrapped with the address). -/
  | clientErr (msg : String)
  /-- the RPC itself returned an error (wrapped with a retry hint). -/
  | transportErr (msg : String)
  /-- non-zero response code: `ErrDispatch.WithCausef(...)` carrying the
  remote `Header.Error` message. -/
  | dispatchErr (remoteMsg : String)
deriving DecidableEq, Repr

inductive DResult (α : Type) where
  | err (e : DispatchError)
  | ok (v : α)
deriving DecidableEq, Repr

/-- `DispatchImpl.OpenShard`. -/
def OpenShard (client : ConnAttempt) (rpc : RpcOutcome SimpleResponse) : DResult Unit :=
  match client with
  | .failed m => .err (.clientErr m)
  | .connected =>
    match rpc with
    | .transportErr m => .err (.transportErr m)
    | .reply resp =>
      if resp.header.code ≠ 0 then .err (.dispatchErr resp.header.errMsg) else .ok ()

/-- `DispatchImpl.CloseShard`. -/
def CloseShard (client : ConnAttempt) (rpc : RpcOutcome SimpleResponse) : DResult Unit :=
  match client with
  | .failed m => .err (.clientErr m)
  | .connected =>
    match rpc with
    | .transportErr m => .err (.transportErr m)
    | .reply resp =>
      if resp.header.code ≠ 0 then .err (.dispatchErr resp.header.errMsg) else .ok ()

/-- `DispatchImpl.CreateTableOnShard`: on success returns
`resp.GetLatestShardVersion()`. -/
def CreateTableOnShard (client : ConnAttempt) (rpc : RpcOutcome ShardVersionResponse) :
    DResult ℕ :=
  match client with
  | .failed m => .err (.clientErr m)
  | .connected =>
    match rpc with
    | .transportErr m => .err (.transportErr m)
    | .reply resp =>
      if resp.header.code ≠ 0 then .err (.dispatchErr resp.header.errMsg)
      else .ok resp.latestShardVersion

/-- `DispatchImpl.DropTableOnShard`: on success returns
`resp.GetLatestShardVersion()`. -/
def DropTableOnShard (client : ConnAttempt) (rpc : RpcOutcome ShardVersionResponse) :
    DResult ℕ :=
  match client with
  | .failed m => .err (.clientErr m)
  | .connected =>
    match rpc with
    | .transportErr m => .err (.transportErr m)
    | .reply resp =>
      if resp.header.code ≠ 0 then .err (.dispatchErr resp.header.errMsg)
      else .ok resp.latestShardVersion

/-- `DispatchImpl.OpenTableOnShard`. -/
def OpenTableOnShard (client : ConnAttempt) (rpc : RpcOutcome SimpleResponse) : DResult Unit :=
  match client with
  | .failed m => .err (.clientErr m)
  | .connected =>
    match rpc with
    | .transportErr m => .err (.transportErr m)
    | .reply resp =>
      if resp.header.code ≠ 0 then .err (.dispatchErr resp.header.errMsg) else .ok ()

/-- `DispatchImpl.CloseTableOnShard`. -/
def CloseTableOnShard (client : ConnAttempt) (rpc : RpcOutcome SimpleResponse) : DResult Unit :=
  match client with
  | .failed m => .err (.clientErr m)
  | .connected =>
    match rpc with
    | .transportErr m => .err (.transportErr m)
    | .reply resp =>
      if resp.header.code ≠ 0 then .err (.dispatchErr resp.header.errMsg) else .ok ()

/-- A dispatch call succeeded. -/
def dIsOk {α : Type} (r : DResult α) : Prop :=
  match r with
  | .err _ => False
  | .ok _ => True

/-- C6: each of the six dispatch calls fails iff the client could not be
obtained, the RPC itself failed, or the response header's Code is non-zero;
a non-zero Code yields the typed dispatch error carrying the remote error
message; and on success `CreateTableOnShard` and `DropTableOnShard` return
the response's `LatestShardVersion`. -/
theorem dispatch_error_semantics (client : ConnAttempt)
    (rpcS : RpcOutcome SimpleResponse) (rpcV : RpcOutcome ShardVersionResponse) :
    (dIsOk (OpenShard client rpcS) ↔
      client = .connected ∧ ∃ resp, rpcS = .reply resp ∧ resp.header.code = 0) ∧
    (dIsOk (CloseShard client rpcS) ↔
      client = .connected ∧ ∃ resp, rpcS = .reply resp ∧ resp.header.code = 0) ∧
    (dIsOk (OpenTableOnShard client rpcS) ↔
      client = .connected ∧ ∃ resp, rpcS = .reply resp ∧ resp.header.code = 0) ∧
    (dIsOk (CloseTableOnShard client rpcS) ↔
      client = .connected ∧ ∃ resp, rpcS = .reply resp ∧ resp.header.code = 0) ∧
    (dIsOk (CreateTableOnShard client rpcV) ↔
      client = .connected ∧ ∃ resp, rpcV = .reply resp ∧ resp.header.code = 0) ∧
    (dIsOk (DropTableOnShard client rpcV) ↔
      client = .connected ∧ ∃ resp, rpcV = .reply resp ∧ resp.header.code = 0) ∧
    (∀ resp, client = .connected → rpcS = .reply resp → resp.header.code ≠ 0 →
      OpenShard client rpcS = .err (.dispatchErr resp.header.errMsg) ∧
      CloseShard client rpcS = .err (.dispatchErr resp.header.errMsg) ∧
      OpenTableOnShard client rpcS = .err (.dispatchErr resp.header.errMsg) ∧
      CloseTableOnShard client rpcS = .err (.dispatchErr resp.header.errMsg)) ∧
    (∀ resp, client = .connected → rpcV = .reply resp → resp.header.code ≠ 0 →
      CreateTableOnShard client rpcV = .err (.dispatchErr resp.header.errMsg) ∧
      DropTableOnShard client rpcV = .err (.dispatchErr resp.header.errMsg)) ∧
    (∀ resp, client = .connected → rpcV = .reply resp → resp.header.code = 0 →
      CreateTableOnShard client rpcV = .ok resp.latestShardVersion ∧
      DropTableOnShard client rpcV = .ok resp.latestShardVersion) := by
  cases client with
  | failed m =>
    simp [OpenShard, CloseShard, OpenTableOnShard, CloseTableOnShard,
      CreateTableOnShard, DropTableOnShard, dIsOk]
  | connected =>
    cases rpcS with
    | transportErr m1 =>
      cases rpcV with
      | transportErr m2 =>
        simp [OpenShard, CloseShard, OpenTableOnShard, CloseTableOnShard,
          CreateTableOnShard, DropTableOnShard, dIsOk]
      | reply r2 =>
        by_cases h2 : r2.header.code = 0 <;>
          simp [OpenShard, CloseShard, OpenTableOnShard, CloseTableOnShard,
            CreateTableOnShard, DropTableOnShard, dIsOk, h2]
    | reply r1 =>
      cases rpcV with
      | transportErr m2 =>
        by_cases h1 : r1.header.code = 0 <;>
          simp [OpenShard, CloseShard, OpenTableOnShard, CloseTableOnShard,
            CreateTableOnShard, DropTableOnShard, dIsOk, h1]
      | reply r2 =>
        by_cases h1 : r1.header.code = 0 <;> by_cases h2 : r2.header.code = 0 <;>
          simp [OpenShard, CloseShard, OpenTableOnShard, CloseTableOnShard,
            CreateTableOnShard, DropTableOnShard, dIsOk, h1, h2]

/-- Witness for C6 at a concrete input: a connected client and a code-0
response with LatestShardVersion 42. -/
theorem dispatch_error_semantics_witness :
    CreateTableOnShard .connected (.reply ⟨⟨0, ""⟩, 42⟩) = .ok 42 ∧
    DropTableOnShard .connected (.reply ⟨⟨0, ""⟩, 42⟩) = .ok 42 :=
  (dispatch_error_semantics .connected (.reply ⟨⟨0, ""⟩⟩)
      (.reply ⟨⟨0, ""⟩, 42⟩)).2.2.2.2.2.2.2.2 ⟨⟨0, ""⟩, 42⟩ rfl rfl rfl

/-! ## Connection cache (`DispatchImpl.getGrpcClient`,
`Service.getForwardedGrpcClient`)

`conns` is a map from endpoint address to the cached `*grpc.ClientConn`.
A connection object carries an identity and a health flag; the flag stands
for the grpc connection's internal state, which the Go code never inspects:
`getGrpcClient` returns whatever is cached for the address, and dials only
on a cache miss (the `TODO: remove unavailable connection` hints in the
source mark the missing eviction).
-/

structure GrpcConn where
  connID : ℕ
  healthy : Bool
deriving DecidableEq, Repr

/-- Outcome of `service.GetClientConn` (dialling the endpoint). -/
inductive DialOutcome where
  | err (msg : String)
  | ok (conn : GrpcConn)
deriving DecidableEq, Repr

/-- Result of `getGrpcClient`: the connection handed to the caller plus the
cache afterwards, or the dial error. -/
inductive GetConnResult where
  | err (msg : String)
  | ok (conn : GrpcConn) (conns : List (String × GrpcConn))
deriving DecidableEq, Repr

/-- `DispatchImpl.getGrpcClient` (and, identically,
`Service.getForwardedGrpcClient`): return the cached connection when the
address is present; otherwise dial, store and return the new connection. -/
def getGrpcClient (conns : List (String × GrpcConn)) (addr : String)
    (dial : DialOutcome) : GetConnResult :=
  match lookupA conns addr with
  | some cc => .ok cc conns
  | none =>
    match dial with
    | .err e => .err e
    | .ok cc => .ok cc (upsertA conns addr cc)

/-- C7 counterexample: with a failed connection cached for the endpoint and
a fresh dial available, `getGrpcClient` hands back the failed cached
connection and never re-dials — refuting "a connection that has failed is
re-dialed lazily on its next use". -/
theorem getGrpcClient_keeps_failed_conn :
    getGrpcClient [("node1:8831", ⟨0, false⟩)] "node1:8831" (.ok ⟨1, true⟩) =
      .ok ⟨0, false⟩ [("node1:8831", ⟨0, false⟩)] ∧
    (⟨0, false⟩ : GrpcConn).healthy = false ∧
    (⟨1, true⟩ : GrpcConn).healthy = true := by decide

/-- C7 (amended): the client keeps at most one cached connection per
endpoint and a cache miss dials the endpoint and stores the new connection;
but a cache hit returns the cached connection unchanged whatever its health
— failed connections are never evicted or re-dialed. -/
theorem getGrpcClient_cache_semantics (conns : List (String × GrpcConn))
    (addr : String) (dial : DialOutcome) :
    (∀ cc, lookupA conns addr = some cc → getGrpcClient conns addr dial = .ok cc conns) ∧
    (lookupA conns addr = none →
      (∀ e, dial = .err e → getGrpcClient conns addr dial = .err e) ∧
      (∀ cc, dial = .ok cc →
        getGrpcClient conns addr dial = .ok cc (upsertA conns addr cc))) ∧
    (∀ cc conns2, getGrpcClient conns addr dial = .ok cc conns2 →
      (keysA conns).Nodup → (keysA conns2).Nodup) := by
  refine ⟨?_, ?_, ?_⟩
  · intro cc hcc
    simp [getGrpcClient, hcc]
  · intro hnone
    constructor
    · intro e he
      simp [getGrpcClient, hnone, he]
    · intro cc hcc
      simp [getGrpcClient, hnone, hcc]
  · intro cc conns2 hok hnodup
    unfold getGrpcClient at hok
    cases hcc : lookupA conns addr with
    | some cc0 =>
      rw [hcc] at hok
      cases hok
      exact hnodup
    | none =>
      rw [hcc] at hok
      cases dial with
      | err e => cases hok
      | ok cc1 =>
        cases hok
        exact keysA_upsertA_nodup conns addr _ hnodup

/-- Witness for C7's amended theorem: a miss on an empty cache dials and
stores the connection. -/
theorem getGrpcClient_cache_semantics_witness :
    getGrpcClient [] "node1:8831" (.ok ⟨1, true⟩) =
      .ok ⟨1, true⟩ (upsertA [] "node1:8831" ⟨1, true⟩) :=
  ((getGrpcClient_cache_semantics [] "node1:8831" (.ok ⟨1, true⟩)).2.1
    (by decide)).2 ⟨1, true⟩ rfl

/-! ## Scatter (shard bootstrap)

Modelled from the spec: the `ScatterProcedure` and its helper
`allocNodeShards` are not among the sources here — only their tests
(`TestScatter`, `TestAllocNodeShard`) are.  Per spec section 4.7, Scatter
"only fires when `MinNodeCount` nodes are present and ClusterState=empty;
uses the NodePicker to distribute `ShardTotal` shards across nodes;
transitions ClusterState→stable", and `TestAllocNodeShard` pins the
distribution: each of the first `minNodeCount` nodes receives
`ceil(shardTotal/minNodeCount)` consecutive shards until all `shardTotal`
shards are placed, so earlier nodes receive the surplus (shardTotal=2,
nodes=4 gives node0,node1; shardTotal=3, nodes=2 gives node0,node0,node1).
Shard ids are handed out consecutively from 0 by the reusable allocator.
-/

inductive ClusterStateTag where
  | empty
  | prepare
  | stable
deriving DecidableEq, Repr

/-- Modelled from the spec: inner loop of `allocNodeShards` — give the node
up to `perNode` shards, stopping once `shardTotal` shards exist overall.
The allocated shard id is the running count of shards. -/
def allocInner (shardTotal : ℕ) (nodeOpt : Option String) :
    ℕ → List (ℕ × String) → List (ℕ × String)
  | 0, shards => shards
  | p + 1, shards =>
    allocInner shardTotal nodeOpt p
      (if shards.length < shardTotal then
        match nodeOpt with
        | some nm => shards ++ [(shards.length, nm)]
        | none => shards
      else shards)

/-- Modelled from the spec: outer loop of `allocNodeShards` over the node
indices. -/
def allocOuter (shardTotal perNode : ℕ) (nodes : List String) :
    List ℕ → List (ℕ × String) → List (ℕ × String)
  | [], shards => shards
  | i :: is, shards =>
    allocOuter shardTotal perNode nodes is (allocInner shardTotal (nodes.get? i) perNode shards)

/-- Modelled from the spec: `allocNodeShards(shardTotal, minNodeCount,
nodeList, allocator)` — distribute `shardTotal` shards over the first
`minNodeCount` nodes, `ceil(shardTotal/minNodeCount)` per node, earliest
nodes first. -/
def allocNodeShards (shardTotal minNodeCount : ℕ) (nodeList : List String) :
    List (ℕ × String) :=
  allocOuter shardTotal ((shardTotal + minNodeCount - 1) / minNodeCount) nodeList
    (List.range minNodeCount) []

/-- Modelled from the spec: the Scatter step — it fires only on an empty
cluster state with at least `minNodeCount` registered nodes, and then
assigns the shards and moves the state to stable. -/
def scatterStep (state : ClusterStateTag) (shardTotal minNodeCount : ℕ)
    (nodes : List String) : ClusterStateTag × List (ℕ × String) :=
  if state = ClusterStateTag.empty ∧ minNodeCount ≤ nodes.length then
    (ClusterStateTag.stable, allocNodeShards shardTotal minNodeCount nodes)
  else (state, [])

/-- Number of shards a node received. -/
def nodeShardCount (assign : List (ℕ × String)) (node : String) : ℕ :=
  (assign.filter (fun p => p.2 = node)).length

theorem allocInner_length (shardTotal : ℕ) (nm : String) :
    ∀ (p : ℕ) (shards : List (ℕ × String)), shards.length ≤ shardTotal →
      (allocInner shardTotal (some nm) p shards).length =
        min shardTotal (shards.length + p) := by
  intro p
  induction p with
  | zero => intro shards h; simp [allocInner]; omega
  | succ q ih =>
    intro shards h
    rw [allocInner]
    by_cases hlt : shards.length < shardTotal
    · rw [if_pos hlt]
      have := ih (shards ++ [(shards.length, nm)]) (by simp; omega)
      rw [this]
      simp
      omega
    · rw [if_neg hlt]
      have := ih shards h
      rw [this]
      omega

theorem allocOuter_length (shardTotal perNode : ℕ) (nodes : List String) :
    ∀ (is : List ℕ) (shards : List (ℕ × String)),
      (∀ i ∈ is, i < nodes.length) → shards.length ≤ shardTotal →
      (allocOuter shardTotal perNode nodes is shards).length =
        min shardTotal (shards.length + is.length * perNode) := by
  intro is
  induction is with
  | nil => intro shards _ h; simp [allocOuter]; omega
  | cons i is1 ih =>
    intro shards hidx h
    have hi : i < nodes.length := hidx i (List.mem_cons_self i is1)
    have hnm : nodes.get? i = some (nodes.get ⟨i, hi⟩) := List.get?_eq_get hi
    have hinner := allocInner_length shardTotal (nodes.get ⟨i, hi⟩) perNode shards h
    rw [allocOuter, hnm]
    rw [ih (allocInner shardTotal (some (nodes.get ⟨i, hi⟩)) perNode shards)
      (fun j hj => hidx j (List.mem_cons_of_mem i hj)) (by rw [hinner]; omega)]
    rw [hinner, List.length_cons]
    have hmul : (is1.length + 1) * perNode = is1.length * perNode + perNode := by ring
    rw [hmul]
    generalize is1.length * perNode = A
    omega

theorem allocNodeShards_length (shardTotal minNodeCount : ℕ) (nodes : List String)
    (hpos : 0 < minNodeCount) (hlen : minNodeCount ≤ nodes.length) :
    (allocNodeShards shardTotal minNodeCount nodes).length = shardTotal := by
  unfold allocNodeShards
  rw [allocOuter_length shardTotal _ nodes (List.range minNodeCount) []
    (fun i hi => lt_of_lt_of_le (List.mem_range.mp hi) hlen) (by simp)]
  simp only [List.length_range, List.length_nil, Nat.zero_add]
  have hceil : shardTotal ≤ minNodeCount * ((shardTotal + minNodeCount - 1) / minNodeCount) := by
    have hmod := Nat.div_add_mod (shardTotal + minNodeCount - 1) minNodeCount
    have hlt : (shardTotal + minNodeCount - 1) % minNodeCount < minNodeCount :=
      Nat.mod_lt _ hpos
    omega
  have := Nat.mul_comm minNodeCount ((shardTotal + minNodeCount - 1) / minNodeCount)
  omega

/-- C8: when `MinNodeCount` registered nodes are present and the cluster
state is empty, the Scatter step assigns all `ShardTotal` shards across the
registered nodes and transitions the state from empty to stable; with
MinNodeCount=2 and ShardTotal=4 each node owns exactly 2 shards, and with
ShardTotal=3 the earlier node receives the surplus (node0 gets 2, node1
gets 1). -/
theorem scatter_assigns_all_shards (shardTotal minNodeCount : ℕ) (nodes : List String)
    (hpos : 0 < minNodeCount) (hlen : minNodeCount ≤ nodes.length) :
    (scatterStep .empty shardTotal minNodeCount nodes).1 = .stable ∧
    (scatterStep .empty shardTotal minNodeCount nodes).2 =
      allocNodeShards shardTotal minNodeCount nodes ∧
    (allocNodeShards shardTotal minNodeCount nodes).length = shardTotal ∧
    nodeShardCount (allocNodeShards 4 2 ["node0", "node1"]) "node0" = 2 ∧
    nodeShardCount (allocNodeShards 4 2 ["node0", "node1"]) "node1" = 2 ∧
    nodeShardCount (allocNodeShards 3 2 ["node0", "node1"]) "node0" = 2 ∧
    nodeShardCount (allocNodeShards 3 2 ["node0", "node1"]) "node1" = 1 := by
  have hfire : (ClusterStateTag.empty = ClusterStateTag.empty ∧
      minNodeCount ≤ nodes.length) := ⟨rfl, hlen⟩
  refine ⟨?_, ?_, allocNodeShards_length shardTotal minNodeCount nodes hpos hlen,
    by decide, by decide, by decide, by decide⟩
  · simp [scatterStep, hfire]
  · simp [scatterStep, hfire]

/-- Witness for C8 at the bootstrap scenario's parameters: ShardTotal=4,
MinNodeCount=2, nodes node0 and node1. -/
theorem scatter_assigns_all_shards_witness :
    (scatterStep .empty 4 2 ["node0", "node1"]).1 = .stable ∧
    (allocNodeShards 4 2 ["node0", "node1"]).length = 4 :=
  ⟨(scatter_assigns_all_shards 4 2 ["node0", "node1"] (by decide) (by decide)).1,
    (scatter_assigns_all_shards 4 2 ["node0", "node1"] (by decide) (by decide)).2.2.1⟩
